import Mathlib

/-!
# The Clipboard Project: `PerformAction::info` and `PerformAction::infoJSON`

Shallow embedding of `src/cb/src/actions/info.cpp`, in its `UNIX_OR_UNIX_LIKE` build.

* A run of `info()` / `infoJSON()` is the sequence of its `printf` calls, in program order, each
  recorded with the format string of the source and its arguments (`Out`), together with the way
  the run ended (`Outcome`).  `render` turns one call into the text it writes.
* The state of the clipboard on disk and the globals the two functions read are the fields of
  `Entry`: one field for the result of each query the source makes.
* Functions the source calls but whose code is not in the file (`formatColors`, `formatBytes`,
  `JSONescape`, ...) are the fields of `Helpers`.
* A `std::string` is a `String` whose characters stand for its `char`s; `size_t` values are
  natural numbers (no operation of the source on them can overflow: they are only divided,
  printed and counted up); `time_t` is an integer.
* Integer division by zero and indexing past the end of a vector are undefined behaviour in
  C++: the run stops there with the matching `Outcome`, having written what was printed before.
* Every library query the source makes (`stat`, `getpwuid`, `fs::space`, `fileContents` of a
  file that exists) is taken to succeed; `stopIndicator()` prints nothing; `stderr` and
  `stdout` are not told apart, since each function writes to one stream only.
-/

namespace PerformAction

/-! ## printf calls -/

/-- One argument handed to a `printf` call. -/
inductive Arg where
  /-- a `std::string` passed as `x.data()` to a `%s` directive -/
  | str (v : String)
  /-- a `size_t` passed to a `%zu` directive -/
  | num (v : Nat)
  /-- the colour-formatted literal `formatColors(lit).data()` passed to a `%s` directive -/
  | colors (lit : String)
  deriving DecidableEq, Repr

/-- One `printf` / `fprintf` call of the source. -/
inductive Out where
  /-- the call `fprintf(stderr, formatColors(template).data(), args...)` -/
  | colored (template : String) (args : List Arg)
  /-- the call `printf(template, args...)` or `fprintf(stderr, template, args...)` -/
  | direct (template : String) (args : List Arg)
  deriving DecidableEq, Repr

/-- How a run ended. -/
inductive Outcome where
  /-- the function returned -/
  | finished
  /-- an integer division with divisor zero was evaluated (line 88 / line 228) -/
  | divisionByZero
  /-- a vector was indexed past its end (`lines[0]`, line 151) -/
  | indexOutOfRange
  deriving DecidableEq, Repr

/-- A run: the calls made, in order, and how it ended. -/
structure Run where
  calls : List Out
  outcome : Outcome
  deriving DecidableEq, Repr

/-- Functions and values the source uses whose code is outside `info.cpp`. -/
structure Helpers where
  /-- the function `formatColors` -/
  formatColors : String → String
  /-- the value of `clipboard_name_message()` (a format string with one `%s`) -/
  clipboard_name_message : String
  /-- the value of `columnLength(clipboard_name_message)` -/
  nameMessageColumns : Nat
  /-- the value of `thisTerminalSize().columns` -/
  terminalColumns : Nat
  /-- the value of `generatedEndbar()` -/
  generatedEndbar : String
  /-- the function `std::ctime` (its result ends in a newline) -/
  ctime : Int → String
  /-- the function `formatBytes` -/
  formatBytes : Nat → String
  /-- the function `formatNumbers` -/
  formatNumbers : Nat → String
  /-- the function `inferMIMEType` -/
  inferMIMEType : String → Option String
  /-- the function `JSONescape` -/
  JSONescape : String → String
  /-- the function `removeExcessWhitespace` -/
  removeExcessWhitespace : String → String
  /-- the function `makeControlCharactersVisible` -/
  makeControlCharactersVisible : String → String
  /-- the function `regexSplit(·, std::regex(" "))` -/
  regexSplit : String → List String

/-- What the current entry holds: `raw` when `path.holdsRawDataInCurrentEntry()` is true,
`tree` when it is false. -/
inductive Content where
  /-- the file `path.data.raw`: `fs::file_size` of it and `fileContents` of it -/
  | raw (fileSize : Nat) (contents : String)
  /-- the directory `path.data`: `totalDirectorySize(path.data)` and, for each entry of
  `fs::directory_iterator(path.data)` in iteration order, its `is_directory()` -/
  | tree (dataSize : Nat) (children : List Bool)
  deriving DecidableEq, Repr

/-- The facts `info()` and `infoJSON()` read: globals and the results of their queries. -/
structure Entry where
  /-- the global `clipboard_name` -/
  clipboard_name : String
  /-- the value of `path.string()` -/
  pathString : String
  /-- the field `st_ctime` of `stat(path)` -/
  rootCtime : Int
  /-- the name `getpwuid(info.st_uid)->pw_name`, for `info` the `stat` of `path` -/
  rootOwner : String
  /-- the name `getpwuid(getuid())->pw_name` -/
  currentUser : String
  /-- the field `st_ctime` of each entry of `fs::recursive_directory_iterator(path.data)` -/
  contentCtimes : List Int
  /-- the flag `path.is_persistent` -/
  is_persistent : Bool
  /-- the value of `path.totalEntries()` -/
  totalEntries : Nat
  /-- the value of `totalDirectorySize(path)` -/
  totalSize : Nat
  /-- the value of `fs::space(path).available` -/
  spaceAvailable : Nat
  /-- the content of the current entry -/
  content : Content
  /-- the global `available_mimes` -/
  available_mimes : List String
  /-- the value of `fs::exists(path.metadata.originals)` -/
  originalsExists : Bool
  /-- the lock marker `path.metadata.lock`: `none` when absent, else its `fileContents` -/
  lock : Option String
  /-- the file `path.metadata.notes`: `none` when absent, else its `fileContents` -/
  notes : Option String
  /-- the value of `path.holdsIgnoreRegexes()` -/
  holdsIgnoreRegexes : Bool
  /-- the value of `fileLines(path.metadata.ignore)` -/
  ignoreLines : List String
  /-- the file `path.metadata.ignore_secret`: `none` when absent, else its `fileLines` -/
  ignore_secret : Option (List String)
  /-- the file `path.metadata.script`: `none` when absent, else its `fileContents` -/
  script : Option String
  /-- the value of `fileLines(path.metadata.script_config, true)` -/
  scriptConfigLines : List String
  deriving DecidableEq, Repr

/-! ## Small pieces of the source -/

/-- Conversion of an integer to `int` (32 bits, two-complement). -/
def toInt32 (x : Int) : Int :=
  (x + 2 ^ 31) % 2 ^ 32 - 2 ^ 31

/-- The call `std::erase(s, c)`: drops every `c` from `s`. -/
def erase (s : String) (c : Char) : String :=
  String.mk (s.toList.filter fun d => d != c)

/-- Unsigned division `a / b` of C++: undefined (`none`) for a zero divisor. -/
def udiv (a b : Nat) : Option Nat :=
  if b = 0 then none else some (a / b)

/-- The expression `spaceAvailable / (totalSize / totalEntries)` of lines 88 and 228. -/
def approxEntriesRemaining (spaceAvailable totalSize totalEntries : Nat) : Option Nat :=
  match udiv totalSize totalEntries with
  | none => none
  | some average => udiv spaceAvailable average

/-- The loop of lines 57 to 62 (and 198 to 203): `latest` starts at 0 and is raised to each
`st_ctime` that exceeds it. -/
def latestChange (ctimes : List Int) : Int :=
  ctimes.foldl (fun latest t => if t > latest then t else latest) 0

/-- The loop of lines 97 and 98 (and 236 and 237): the pair `(files, directories)` after
`entry.is_directory() ? directories++ : files++` over the children. -/
def countChildren (children : List Bool) : Nat × Nat :=
  children.foldl (fun c isDir => if isDir then (c.1, c.2 + 1) else (c.1 + 1, c.2)) (0, 0)

/-- Modelled from the spec: the member function `path.isLocked()`, whose code is outside
`info.cpp`; an entry is locked when its lock marker exists. -/
def isLocked (e : Entry) : Bool :=
  e.lock.isSome

/-- The loops of lines 105 to 108, 127 to 130, 153 to 156 and 163 to 166: each element is
printed, followed by `", "` when it differs from the last element of the list. -/
def printJoined (xs : List String) : List Out :=
  (xs.map fun x =>
    Out.direct "%s" [.str x] :: (if some x ≠ xs.getLast? then [Out.direct ", " []] else [])).flatten

/-- The loops of lines 245 and 246 and of lines 263 and 264: each element is printed between
double quotes (after `escape`), followed by `", "` when it differs from the last element. -/
def printQuoted (escape : String → String) (xs : List String) : List Out :=
  xs.map fun x =>
    Out.direct "\"%s\"%s" [.str (escape x), .str (if some x ≠ xs.getLast? then ", " else "")]

/-! ## `info()` -/

/-- Lines 34 to 40: the top border with the clipboard name. -/
def infoBanner (h : Helpers) (e : Entry) : List Out :=
  let columns : Int :=
    toInt32 (h.terminalColumns - ((h.nameMessageColumns - 2) + e.clipboard_name.length + 7))
  [.direct "%s" [.colors "[info]┏━━[inverse] "],
   .direct h.clipboard_name_message [.str e.clipboard_name],
   .direct "%s" [.colors " [noinverse][info]━"]]
  ++ List.replicate columns.toNat (.direct "━" [])
  ++ [.direct "%s" [.colors "┓[blank]\n"]]

/-- Lines 46 to 87: creation date, last change, path, owner, persistence and the totals. -/
def infoFacts (h : Helpers) (e : Entry) : List Out :=
  let endbar := h.generatedEndbar
  [.colored "[info]%s┃ Created [help]%s[blank]\n"
      [.str endbar, .str (erase (h.ctime e.rootCtime) '\n')],
   .colored "[info]%s┃ Content last changed [help]%s[blank]\n"
      [.str endbar, .str (erase (h.ctime (latestChange e.contentCtimes)) '\n')],
   .colored "[info]%s┃ Stored in [help]%s[blank]\n" [.str endbar, .str e.pathString],
   .colored "[info]%s┃ Owned by [help]%s[blank]\n" [.str endbar, .str e.rootOwner],
   .colored "[info]%s┃ Persistent? [help]%s[blank]\n"
      [.str endbar, .str (if e.is_persistent then "Yes" else "No")],
   .colored "[info]%s┃ Total entries: [help]%zu[blank]\n" [.str endbar, .num e.totalEntries],
   .colored "[info]%s┃ Total clipboard size: [help]%s[blank]\n"
      [.str endbar, .str (h.formatBytes e.totalSize)],
   .colored "[info]%s┃ Total space remaining: [help]%s[blank]\n"
      [.str endbar, .str (h.formatBytes e.spaceAvailable)]]

/-- Lines 90 to 101: content size and type of a raw entry, or size and counts of a tree. -/
def infoContent (h : Helpers) (e : Entry) : List Out :=
  let endbar := h.generatedEndbar
  match e.content with
  | .raw fileSize contents =>
    [.colored "[info]%s┃ Content size: [help]%s[blank]\n"
        [.str endbar, .str (h.formatBytes fileSize)],
     .colored "[info]%s┃ Content type: [help]%s[blank]\n"
        [.str endbar, .str ((h.inferMIMEType contents).getD "text/plain")]]
  | .tree dataSize children =>
    [.colored "[info]%s┃ Content size: [help]%s[blank]\n"
        [.str endbar, .str (h.formatBytes dataSize)],
     .colored "[info]%s┃ Files: [help]%zu[blank]\n"
        [.str endbar, .num (countChildren children).1],
     .colored "[info]%s┃ Directories: [help]%zu[blank]\n"
        [.str endbar, .num (countChildren children).2]]

/-- Lines 103 to 110: the content types the GUI clipboard offers. -/
def infoMimes (h : Helpers) (e : Entry) : List Out :=
  if e.available_mimes.isEmpty then []
  else
    [.colored "[info]%s┃ Available types from GUI: [help]" [.str h.generatedEndbar]]
    ++ printJoined e.available_mimes
    ++ [.direct "%s" [.colors "[blank]\n"]]

/-- Lines 111 to 117: whether the content was cut, and the lock. -/
def infoLock (h : Helpers) (e : Entry) : List Out :=
  let endbar := h.generatedEndbar
  [.colored "[info]%s┃ Content cut? [help]%s[blank]\n"
      [.str endbar, .str (if e.originalsExists then "Yes" else "No")],
   .colored "[info]%s┃ Locked by another process? [help]%s[blank]\n"
      [.str endbar, .str (if isLocked e then "Yes" else "No")]]
  ++ (match e.lock with
      | some pid =>
        [.colored "[info]%s┃ Locked by process with pid [help]%s[blank]\n"
            [.str endbar, .str pid]]
      | none => [])

/-- Lines 119 to 122: the note. -/
def infoNote (h : Helpers) (e : Entry) : List Out :=
  match e.notes with
  | some note => [.colored "[info]%s┃ Note: [help]%s[blank]\n" [.str h.generatedEndbar, .str note]]
  | none => [.colored "[info]%s┃ There is no note for this clipboard.[blank]\n"
      [.str h.generatedEndbar]]

/-- Lines 124 to 133: the ignore regexes. -/
def infoIgnore (h : Helpers) (e : Entry) : List Out :=
  if e.holdsIgnoreRegexes then
    [.colored "[info]%s┃ Ignore regexes: [help]" [.str h.generatedEndbar]]
    ++ printJoined e.ignoreLines
    ++ [.direct "%s" [.colors "[blank]\n"]]
  else
    [.colored "[info]%s┃ There are no ignore regexes for this clipboard.[blank]\n"
      [.str h.generatedEndbar]]

/-- Lines 135 to 141: how many ignore secrets there are. -/
def infoSecrets (h : Helpers) (e : Entry) : List Out :=
  match e.ignore_secret with
  | some secrets =>
    [.colored "[info]%s┃ There are %zu ignore secrets for this clipboard.[blank]\n"
      [.str h.generatedEndbar, .num secrets.length]]
  | none =>
    [.colored "[info]%s┃ There are no ignore secrets for this clipboard.[blank]\n"
      [.str h.generatedEndbar]]

/-- Lines 144 to 149: the preview of the script `script`. -/
def infoScriptPreview (h : Helpers) (script : String) : Out :=
  if script.length > 50 then
    .colored "[info]%s┃ Script preview: [help]%s...[blank]\n"
      [.str h.generatedEndbar,
       .str (h.makeControlCharactersVisible (h.removeExcessWhitespace (String.mk (script.toList.take 50))))]
  else
    .colored "[info]%s┃ Script preview: [help]%s[blank]\n"
      [.str h.generatedEndbar,
       .str (h.makeControlCharactersVisible (h.removeExcessWhitespace script))]

/-- Lines 151 to 160, once `lines[0]` has been read as `line0`. -/
def infoScriptActions (h : Helpers) (line0 : String) : List Out :=
  if line0 ≠ "" then
    [.colored "[info]%s┃ Script actions: [help]" [.str h.generatedEndbar]]
    ++ printJoined (h.regexSplit line0)
    ++ [.direct "%s" [.colors "[blank]\n"]]
  else
    [.colored "[info]%s┃ This script is set to run for all actions.[blank]\n"
      [.str h.generatedEndbar]]

/-- Lines 161 to 170, for `rest` the lines after `lines[0]`. -/
def infoScriptTimings (h : Helpers) (rest : List String) : List Out :=
  match rest with
  | line1 :: _ =>
    if line1 ≠ "" then
      [.colored "[info]%s┃ Script timings: [help]" [.str h.generatedEndbar]]
      ++ printJoined (h.regexSplit line1)
      ++ [.direct "%s" [.colors "[blank]\n"]]
    else
      [.colored "[info]%s┃ This script is set to run before and after all actions.[blank]\n"
        [.str h.generatedEndbar]]
  | [] =>
    [.colored "[info]%s┃ This script is set to run before and after all actions.[blank]\n"
      [.str h.generatedEndbar]]

/-- Lines 143 to 173: the script section. Reading `lines[0]` of an empty vector is undefined. -/
def infoScript (h : Helpers) (e : Entry) : Run :=
  match e.script with
  | none =>
    ⟨[.colored "[info]%s┃ There is no script for this clipboard.[blank]\n"
        [.str h.generatedEndbar]], .finished⟩
  | some script =>
    match e.scriptConfigLines with
    | [] => ⟨[infoScriptPreview h script], .indexOutOfRange⟩
    | line0 :: rest =>
      ⟨infoScriptPreview h script :: (infoScriptActions h line0 ++ infoScriptTimings h rest),
       .finished⟩

/-- Lines 175 to 179: the bottom border. -/
def infoFooter (h : Helpers) : List Out :=
  let cols : Int := toInt32 h.terminalColumns
  [.direct "%s" [.colors "[info]┗"]]
  ++ List.replicate (cols - 2).toNat (.direct "━" [])
  ++ [.direct "%s" [.colors "┛[blank]\n"]]

/-- The function `PerformAction::info()`: the run stops at line 88 when the division is
undefined and at line 151 when the script section stops there; otherwise it goes on to the
bottom border. -/
def info (h : Helpers) (e : Entry) : Run :=
  match approxEntriesRemaining e.spaceAvailable e.totalSize e.totalEntries with
  | none => ⟨infoBanner h e ++ infoFacts h e, .divisionByZero⟩
  | some remaining =>
    ⟨infoBanner h e ++ infoFacts h e
      ++ [.colored "[info]%s┃ Approx. entries remaining: [help]%s[blank]\n"
            [.str h.generatedEndbar, .str (h.formatNumbers remaining)]]
      ++ infoContent h e ++ infoMimes h e ++ infoLock h e ++ infoNote h e
      ++ infoIgnore h e ++ infoSecrets h e ++ (infoScript h e).calls
      ++ (if (infoScript h e).outcome = .finished then infoFooter h else []),
     (infoScript h e).outcome⟩

/-! ## `infoJSON()` -/

/-- Lines 183 to 227: name, dates, path, owner, persistence and the totals. -/
def infoJSONFacts (h : Helpers) (e : Entry) : List Out :=
  [.direct "\x7b\n" [],
   .direct "    \"name\": \"%s\",\n" [.str e.clipboard_name],
   .direct "    \"created\": \"%s\",\n" [.str (erase (h.ctime e.rootCtime) '\n')],
   .direct "    \"contentLastChanged\": \"%s\",\n"
      [.str (erase (h.ctime (latestChange e.contentCtimes)) '\n')],
   .direct "    \"path\": \"%s\",\n" [.str (h.JSONescape e.pathString)],
   .direct "    \"owner\": \"%s\",\n" [.str e.currentUser],
   .direct "    \"isPersistent\": %s,\n" [.str (if e.is_persistent then "true" else "false")],
   .direct "    \"totalEntries\": %zu,\n" [.num e.totalEntries],
   .direct "    \"totalBytesUsed\": %zu,\n" [.num e.totalSize],
   .direct "    \"totalBytesRemaining\": %zu,\n" [.num e.spaceAvailable]]

/-- Lines 230 to 241: content size and type of a raw entry, or size and counts of a tree. -/
def infoJSONContent (h : Helpers) (e : Entry) : List Out :=
  match e.content with
  | .raw fileSize contents =>
    [.direct "    \"contentBytes\": %zu,\n" [.num fileSize],
     .direct "    \"contentType\": \"%s\",\n"
        [.str ((h.inferMIMEType contents).getD "text/plain")]]
  | .tree dataSize children =>
    [.direct "    \"contentBytes\": %zu,\n" [.num dataSize],
     .direct "    \"files\": %zu,\n" [.num (countChildren children).1],
     .direct "    \"directories\": %zu,\n" [.num (countChildren children).2]]

/-- Lines 243 to 248: the content types the GUI clipboard offers. -/
def infoJSONMimes (e : Entry) : List Out :=
  if e.available_mimes.isEmpty then []
  else
    [.direct "    \"availableTypes\": [" []]
    ++ printQuoted (fun x => x) e.available_mimes
    ++ [.direct "],\n" []]

/-- Lines 250 to 253: whether the content was cut, and the lock. -/
def infoJSONLock (e : Entry) : List Out :=
  [.direct "    \"contentCut\": %s,\n" [.str (if e.originalsExists then "true" else "false")],
   .direct "    \"locked\": %s,\n" [.str (if isLocked e then "true" else "false")]]
  ++ (match e.lock with
      | some pid => [.direct "    \"lockedBy\": \"%s\",\n" [.str pid]]
      | none => [])

/-- Lines 255 to 258: the note. -/
def infoJSONNote (h : Helpers) (e : Entry) : List Out :=
  match e.notes with
  | some note => [.direct "    \"note\": \"%s\",\n" [.str (h.JSONescape note)]]
  | none => [.direct "    \"note\": null,\n" []]

/-- Lines 260 to 268: the ignore regexes. -/
def infoJSONIgnore (h : Helpers) (e : Entry) : List Out :=
  if e.holdsIgnoreRegexes then
    [.direct "    \"ignoreRegexes\": [" []]
    ++ printQuoted h.JSONescape e.ignoreLines
    ++ [.direct "]\n" []]
  else
    [.direct "    \"ignoreRegexes\": []\n" []]

/-- The function `PerformAction::infoJSON()`: the run stops at line 228 when the division is
undefined. -/
def infoJSON (h : Helpers) (e : Entry) : Run :=
  match approxEntriesRemaining e.spaceAvailable e.totalSize e.totalEntries with
  | none => ⟨infoJSONFacts h e, .divisionByZero⟩
  | some remaining =>
    ⟨infoJSONFacts h e
      ++ [.direct "    \"approxEntriesRemaining\": %zu,\n" [.num remaining]]
      ++ infoJSONContent h e ++ infoJSONMimes e ++ infoJSONLock e ++ infoJSONNote h e
      ++ infoJSONIgnore h e ++ [.direct "\x7d\n" []],
     .finished⟩

/-! ## The text a call writes -/

/-- The text of an argument as `printf` inserts it. -/
def Arg.text (h : Helpers) : Arg → String
  | .str v => v
  | .num v => toString v
  | .colors lit => h.formatColors lit

/-- Substitution of the directives `%s` and `%zu` of a format by the arguments, in order. -/
def fill : List Char → List String → List Char
  | [], _ => []
  | '%' :: 's' :: rest, a :: more => a.toList ++ fill rest more
  | '%' :: 'z' :: 'u' :: rest, a :: more => a.toList ++ fill rest more
  | c :: rest, args => c :: fill rest args

/-- The text one call writes. -/
def render (h : Helpers) : Out → String
  | .colored template args => String.mk (fill (h.formatColors template).toList (args.map (Arg.text h)))
  | .direct template args => String.mk (fill template.toList (args.map (Arg.text h)))

/-- The text a sequence of calls writes. -/
def printed (h : Helpers) (calls : List Out) : String :=
  String.join (calls.map (render h))

/-! ## Concrete helper functions, for evaluating the model -/

/-- Modelled from the spec: the helper `removeExcessWhitespace`, whose code is outside
`info.cpp`: embedded whitespace runs become single spaces. The flag tells whether the previous
character was whitespace. -/
def collapseWhitespace : Bool → List Char → List Char
  | _, [] => []
  | afterSpace, c :: rest =>
    if c.isWhitespace then
      if afterSpace then collapseWhitespace true rest else ' ' :: collapseWhitespace true rest
    else c :: collapseWhitespace false rest

/-- Modelled from the spec: the helper `makeControlCharactersVisible`, whose code is outside
`info.cpp`: a non-printable control character is shown as a visible indicator (here a caret
and the letter 64 places further, as in `^A`). -/
def showControlCharacters (cs : List Char) : List Char :=
  (cs.map fun c =>
    if c.toNat < 32 then ['^', Char.ofNat (c.toNat + 64)]
    else if c.toNat = 127 then ['^', '?']
    else [c]).flatten

/-- Modelled from the spec: the helper `JSONescape`, whose code is outside `info.cpp`: double
quotes, backslashes and control characters of a string are escaped. -/
def escapeJSON (cs : List Char) : List Char :=
  (cs.map fun c =>
    if c.toNat = 34 then [Char.ofNat 92, Char.ofNat 34]
    else if c.toNat = 92 then [Char.ofNat 92, Char.ofNat 92]
    else if c.toNat = 10 then [Char.ofNat 92, 'n']
    else if c.toNat = 13 then [Char.ofNat 92, 'r']
    else if c.toNat = 9 then [Char.ofNat 92, 't']
    else if c.toNat < 32 then
      [Char.ofNat 92, 'u', '0', '0', Nat.digitChar (c.toNat / 16), Nat.digitChar (c.toNat % 16)]
    else [c]).flatten

/-- Helper functions for a terminal of 80 columns without colours: `formatColors` leaves its
argument as it is, times and numbers are written in decimal, no content type is inferred, and
the three text helpers are the ones modelled from the spec. -/
def plainHelpers : Helpers where
  formatColors := fun s => s
  clipboard_name_message := "Info for clipboard %s"
  nameMessageColumns := 21
  terminalColumns := 80
  generatedEndbar := ""
  ctime := fun t => toString t ++ "\n"
  formatBytes := fun n => toString n ++ "B"
  formatNumbers := fun n => toString n
  inferMIMEType := fun _ => none
  JSONescape := fun s => String.mk (escapeJSON s.toList)
  removeExcessWhitespace := fun s => String.mk (collapseWhitespace false s.toList)
  makeControlCharactersVisible := fun s => String.mk (showControlCharacters s.toList)
  regexSplit := fun s => s.splitOn " "

/-- A clipboard named `0` holding one raw entry of 10 bytes, with no sidecar file. -/
def plainEntry : Entry where
  clipboard_name := "0"
  pathString := "/tmp/Clipboard/0"
  rootCtime := 1700000000
  rootOwner := "user"
  currentUser := "user"
  contentCtimes := [1700000100]
  is_persistent := false
  totalEntries := 1
  totalSize := 10
  spaceAvailable := 1000
  content := .raw 10 "0123456789"
  available_mimes := []
  originalsExists := false
  lock := none
  notes := none
  holdsIgnoreRegexes := false
  ignoreLines := []
  ignore_secret := none
  script := none
  scriptConfigLines := []

/-- The literal of a call that goes through `formatColors`; `none` for a direct call. -/
def Out.label : Out → Option String
  | .colored template _ => some template
  | .direct _ _ => none

/-- The format of a direct call; `none` for a call that goes through `formatColors`. -/
def Out.plainFormat : Out → Option String
  | .colored _ _ => none
  | .direct template _ => some template

/-! ## Entries used as concrete inputs -/

/-- An empty clipboard: one entry with an empty data directory and no byte stored. -/
def emptyEntry : Entry :=
  { plainEntry with totalSize := 0, content := .tree 0 [], contentCtimes := [] }

/-- The entry `plainEntry`, locked by the process 4821. -/
def lockedEntry : Entry :=
  { plainEntry with lock := some "4821" }

/-- A clipboard of ten empty entries, locked by the process 4821: the lock marker, of 4 bytes,
is its only file that is not empty. -/
def lockedEmptyEntry : Entry :=
  { plainEntry with
    totalEntries := 10, totalSize := 4, content := .tree 0 [], contentCtimes := [],
    lock := some "4821" }

/-- A script of 56 characters: `echo`, fifty spaces, `hi`. -/
def spacedScript : String :=
  "echo                                                  hi"

/-- The entry `plainEntry` with the script `body` and the configuration lines `config`. -/
def scriptEntry (body : String) (config : List String) : Entry :=
  { plainEntry with script := some body, scriptConfigLines := config }

/-- The entry `plainEntry` with an ignore file of three lines, the first and the last equal. -/
def repeatedIgnoreEntry : Entry :=
  { plainEntry with holdsIgnoreRegexes := true, ignoreLines := ["a", "b", "a"] }

/-- The entry `plainEntry` under a clipboard name that holds double quotes. -/
def quotedNameEntry : Entry :=
  { plainEntry with clipboard_name := "my \"own\" board" }

namespace Spec

end Spec

/-! ## The division of lines 88 and 228 -/

theorem udiv_eq_some_iff (a b r : Nat) : udiv a b = some r ↔ b ≠ 0 ∧ r = a / b := by
  unfold udiv
  by_cases hb : b = 0
  · simp [hb]
  · simp [hb, eq_comm]

theorem approx_eq_some_iff (s t n r : Nat) :
    approxEntriesRemaining s t n = some r ↔ n ≠ 0 ∧ t / n ≠ 0 ∧ r = s / (t / n) := by
  unfold approxEntriesRemaining
  by_cases hn : n = 0
  · simp [udiv, hn]
  · simp only [udiv, hn, if_false]
    by_cases ha : t / n = 0
    · simp [ha]
    · simp [ha, hn, eq_comm]

theorem approx_isSome_iff (s t n : Nat) :
    (approxEntriesRemaining s t n).isSome ↔ n ≠ 0 ∧ t ≥ n := by
  rw [Option.isSome_iff_exists]
  constructor
  · rintro ⟨r, hr⟩
    obtain ⟨hn, ha, -⟩ := (approx_eq_some_iff s t n r).1 hr
    refine ⟨hn, ?_⟩
    by_contra hlt
    exact ha (Nat.div_eq_of_lt (by omega))
  · rintro ⟨hn, hge⟩
    refine ⟨s / (t / n), (approx_eq_some_iff s t n _).2 ⟨hn, ?_, rfl⟩⟩
    have : 0 < t / n := Nat.div_pos hge (Nat.pos_of_ne_zero hn)
    omega

theorem approx_eq_none_iff (s t n : Nat) :
    approxEntriesRemaining s t n = none ↔ n = 0 ∨ t < n := by
  have h := approx_isSome_iff s t n
  cases hx : approxEntriesRemaining s t n with
  | none =>
    rw [hx] at h
    simp only [Option.isSome_none, Bool.false_eq_true, false_iff, not_and_or] at h
    simp only [true_iff]
    rcases h with h | h
    · left; simpa using h
    · right; omega
  | some r =>
    rw [hx] at h
    have h2 := h.1 rfl
    constructor
    · intro hc
      cases hc
    · rintro (h0 | hlt)
      · exact absurd h0 h2.1
      · omega

/-! ## The two runs, by case of the division -/

theorem info_of_none (h : Helpers) (e : Entry)
    (hx : approxEntriesRemaining e.spaceAvailable e.totalSize e.totalEntries = none) :
    info h e = ⟨infoBanner h e ++ infoFacts h e, .divisionByZero⟩ := by
  unfold info
  rw [hx]

theorem infoJSON_of_none (h : Helpers) (e : Entry)
    (hx : approxEntriesRemaining e.spaceAvailable e.totalSize e.totalEntries = none) :
    infoJSON h e = ⟨infoJSONFacts h e, .divisionByZero⟩ := by
  unfold infoJSON
  rw [hx]

theorem info_of_some (h : Helpers) (e : Entry) (r : Nat)
    (hx : approxEntriesRemaining e.spaceAvailable e.totalSize e.totalEntries = some r) :
    info h e =
      ⟨infoBanner h e ++ infoFacts h e
        ++ [.colored "[info]%s┃ Approx. entries remaining: [help]%s[blank]\n"
              [.str h.generatedEndbar, .str (h.formatNumbers r)]]
        ++ infoContent h e ++ infoMimes h e ++ infoLock h e ++ infoNote h e
        ++ infoIgnore h e ++ infoSecrets h e ++ (infoScript h e).calls
        ++ (if (infoScript h e).outcome = .finished then infoFooter h else []),
       (infoScript h e).outcome⟩ := by
  unfold info
  rw [hx]

theorem infoJSON_of_some (h : Helpers) (e : Entry) (r : Nat)
    (hx : approxEntriesRemaining e.spaceAvailable e.totalSize e.totalEntries = some r) :
    infoJSON h e =
      ⟨infoJSONFacts h e
        ++ [.direct "    \"approxEntriesRemaining\": %zu,\n" [.num r]]
        ++ infoJSONContent h e ++ infoJSONMimes e ++ infoJSONLock e ++ infoJSONNote h e
        ++ infoJSONIgnore h e ++ [.direct "\x7d\n" []],
       .finished⟩ := by
  unfold infoJSON
  rw [hx]

theorem infoScript_outcome_ne_divisionByZero (h : Helpers) (e : Entry) :
    (infoScript h e).outcome ≠ .divisionByZero := by
  unfold infoScript
  cases e.script with
  | none => simp
  | some b => cases e.scriptConfigLines <;> simp

/-- C10: the expression `spaceAvailable / (totalSize / totalEntries)` of `info()` and
`infoJSON()` has no zero divisor exactly when `totalEntries` is not 0 and `totalSize` is at
least `totalEntries`; whenever it is defined, with `a = totalSize / totalEntries`, its value
`r` satisfies `r * a ≤ spaceAvailable < (r + 1) * a`; and a run of `info()` or of
`infoJSON()` ends in a division by zero exactly when the expression is undefined. -/
theorem approxEntriesRemaining_defined_iff_and_bounds (spaceAvailable totalSize totalEntries : Nat) :
    ((approxEntriesRemaining spaceAvailable totalSize totalEntries).isSome ↔
      totalEntries ≠ 0 ∧ totalSize ≥ totalEntries) ∧
    (∀ r, approxEntriesRemaining spaceAvailable totalSize totalEntries = some r →
      r * (totalSize / totalEntries) ≤ spaceAvailable ∧
      spaceAvailable < (r + 1) * (totalSize / totalEntries)) ∧
    (∀ (h : Helpers) (e : Entry), e.spaceAvailable = spaceAvailable → e.totalSize = totalSize →
      e.totalEntries = totalEntries →
      ((info h e).outcome = .divisionByZero ↔ ¬ (totalEntries ≠ 0 ∧ totalSize ≥ totalEntries)) ∧
      ((infoJSON h e).outcome = .divisionByZero ↔
        ¬ (totalEntries ≠ 0 ∧ totalSize ≥ totalEntries))) := by
  refine ⟨approx_isSome_iff spaceAvailable totalSize totalEntries, ?_, ?_⟩
  · intro r hr
    obtain ⟨-, ha, rfl⟩ := (approx_eq_some_iff spaceAvailable totalSize totalEntries r).1 hr
    have hpos : 0 < totalSize / totalEntries := Nat.pos_of_ne_zero ha
    refine ⟨Nat.div_mul_le_self spaceAvailable (totalSize / totalEntries), ?_⟩
    rw [Nat.mul_comm]
    exact Nat.lt_mul_div_succ spaceAvailable hpos
  · rintro h e rfl rfl rfl
    rw [← approx_isSome_iff e.spaceAvailable e.totalSize e.totalEntries]
    cases hx : approxEntriesRemaining e.spaceAvailable e.totalSize e.totalEntries with
    | none =>
      rw [info_of_none h e hx, infoJSON_of_none h e hx]
      simp
    | some r =>
      rw [info_of_some h e r hx, infoJSON_of_some h e r hx]
      simp [infoScript_outcome_ne_divisionByZero]

/-- With 1000 bytes free, 35 bytes used and 3 entries the average is 11 and the value is 90,
with `90 * 11 ≤ 1000 < 91 * 11`. -/
theorem approxEntriesRemaining_defined_iff_and_bounds_witness :
    approxEntriesRemaining 1000 35 3 = some 90 ∧ 90 * (35 / 3) ≤ 1000 ∧ 1000 < (90 + 1) * (35 / 3) :=
  ⟨by decide, (approxEntriesRemaining_defined_iff_and_bounds 1000 35 3).2.1 90 (by decide)⟩

/-- Every call of `info()` belongs to one of its sections. -/
theorem mem_info_calls (h : Helpers) (e : Entry) (c : Out) (hc : c ∈ (info h e).calls) :
    c ∈ infoBanner h e ∨ c ∈ infoFacts h e ∨
    c.label = some "[info]%s┃ Approx. entries remaining: [help]%s[blank]\n" ∨
    c ∈ infoContent h e ∨ c ∈ infoMimes h e ∨ c ∈ infoLock h e ∨ c ∈ infoNote h e ∨
    c ∈ infoIgnore h e ∨ c ∈ infoSecrets h e ∨ c ∈ (infoScript h e).calls ∨
    c ∈ infoFooter h := by
  cases hx : approxEntriesRemaining e.spaceAvailable e.totalSize e.totalEntries with
  | none =>
    rw [info_of_none h e hx] at hc
    simp only [List.mem_append] at hc
    tauto
  | some r =>
    rw [info_of_some h e r hx] at hc
    simp only [List.mem_append, List.mem_singleton] at hc
    rcases hc with (((((((((hc | hc) | hc) | hc) | hc) | hc) | hc) | hc) | hc) | hc) | hc
    · tauto
    · tauto
    · subst hc; right; right; left; rfl
    · tauto
    · tauto
    · tauto
    · tauto
    · tauto
    · tauto
    · tauto
    · split at hc
      · tauto
      · simp at hc

/-- Every call of `infoJSON()` belongs to one of its sections. -/
theorem mem_infoJSON_calls (h : Helpers) (e : Entry) (c : Out) (hc : c ∈ (infoJSON h e).calls) :
    c ∈ infoJSONFacts h e ∨
    c.plainFormat = some "    \"approxEntriesRemaining\": %zu,\n" ∨
    c ∈ infoJSONContent h e ∨ c ∈ infoJSONMimes e ∨ c ∈ infoJSONLock e ∨
    c ∈ infoJSONNote h e ∨ c ∈ infoJSONIgnore h e ∨ c.plainFormat = some "\x7d\n" := by
  cases hx : approxEntriesRemaining e.spaceAvailable e.totalSize e.totalEntries with
  | none =>
    rw [infoJSON_of_none h e hx] at hc
    tauto
  | some r =>
    rw [infoJSON_of_some h e r hx] at hc
    simp only [List.mem_append, List.mem_singleton] at hc
    rcases hc with ((((((hc | hc) | hc) | hc) | hc) | hc) | hc) | hc
    · tauto
    · subst hc; right; left; rfl
    · tauto
    · tauto
    · tauto
    · tauto
    · tauto
    · subst hc; right; right; right; right; right; right; right; rfl

/-! ## The literals each section of `info()` prints -/

theorem label_printJoined (xs : List String) : ∀ c ∈ printJoined xs, c.label = none := by
  intro c hc
  simp only [printJoined, List.mem_flatten, List.mem_map] at hc
  obtain ⟨l, ⟨x, -, rfl⟩, hcl⟩ := hc
  split at hcl
  · simp only [List.mem_cons, List.mem_singleton, List.not_mem_nil, or_false] at hcl
    rcases hcl with rfl | rfl <;> rfl
  · simp only [List.mem_cons, List.not_mem_nil, or_false] at hcl
    rw [hcl]; rfl

theorem label_infoBanner (h : Helpers) (e : Entry) : ∀ c ∈ infoBanner h e, c.label = none := by
  intro c hc
  simp only [infoBanner, List.mem_append, List.mem_cons, List.mem_singleton, List.not_mem_nil,
    or_false, List.mem_replicate] at hc
  rcases hc with ((rfl | rfl | rfl) | ⟨-, rfl⟩) | rfl <;> rfl

theorem label_infoFooter (h : Helpers) : ∀ c ∈ infoFooter h, c.label = none := by
  intro c hc
  simp only [infoFooter, List.mem_append, List.mem_cons, List.mem_singleton, List.not_mem_nil,
    or_false, List.mem_replicate] at hc
  rcases hc with (rfl | ⟨-, rfl⟩) | rfl <;> rfl

theorem label_infoFacts (h : Helpers) (e : Entry) : ∀ c ∈ infoFacts h e, c.label ∈
    [some "[info]%s┃ Created [help]%s[blank]\n",
     some "[info]%s┃ Content last changed [help]%s[blank]\n",
     some "[info]%s┃ Stored in [help]%s[blank]\n",
     some "[info]%s┃ Owned by [help]%s[blank]\n",
     some "[info]%s┃ Persistent? [help]%s[blank]\n",
     some "[info]%s┃ Total entries: [help]%zu[blank]\n",
     some "[info]%s┃ Total clipboard size: [help]%s[blank]\n",
     some "[info]%s┃ Total space remaining: [help]%s[blank]\n"] := by
  intro c hc
  simp only [infoFacts, List.mem_cons, List.mem_singleton, List.not_mem_nil, or_false] at hc
  rcases hc with rfl | rfl | rfl | rfl | rfl | rfl | rfl | rfl <;> simp [Out.label]

theorem label_infoContent (h : Helpers) (e : Entry) : ∀ c ∈ infoContent h e, c.label ∈
    [some "[info]%s┃ Content size: [help]%s[blank]\n",
     some "[info]%s┃ Content type: [help]%s[blank]\n",
     some "[info]%s┃ Files: [help]%zu[blank]\n",
     some "[info]%s┃ Directories: [help]%zu[blank]\n"] := by
  intro c hc
  unfold infoContent at hc
  split at hc
  · simp only [List.mem_cons, List.mem_singleton, List.not_mem_nil, or_false] at hc
    rcases hc with rfl | rfl <;> simp [Out.label]
  · simp only [List.mem_cons, List.mem_singleton, List.not_mem_nil, or_false] at hc
    rcases hc with rfl | rfl | rfl <;> simp [Out.label]

theorem label_infoMimes (h : Helpers) (e : Entry) : ∀ c ∈ infoMimes h e, c.label ∈
    [none, some "[info]%s┃ Available types from GUI: [help]"] := by
  intro c hc
  unfold infoMimes at hc
  split at hc
  · simp at hc
  · simp only [List.mem_append, List.mem_cons, List.mem_singleton, List.not_mem_nil,
      or_false] at hc
    rcases hc with (rfl | hj) | rfl
    · simp [Out.label]
    · simp [label_printJoined _ c hj]
    · simp [Out.label]

theorem label_infoLock (h : Helpers) (e : Entry) : ∀ c ∈ infoLock h e, c.label ∈
    [some "[info]%s┃ Content cut? [help]%s[blank]\n",
     some "[info]%s┃ Locked by another process? [help]%s[blank]\n",
     some "[info]%s┃ Locked by process with pid [help]%s[blank]\n"] := by
  intro c hc
  cases hl : e.lock with
  | some pid =>
    simp only [infoLock, hl, List.mem_append, List.mem_cons, List.mem_singleton,
      List.not_mem_nil, or_false] at hc
    rcases hc with (rfl | rfl) | rfl <;> simp [Out.label]
  | none =>
    simp only [infoLock, hl, List.append_nil, List.mem_cons, List.mem_singleton,
      List.not_mem_nil, or_false] at hc
    rcases hc with rfl | rfl <;> simp [Out.label]

theorem label_infoLock_unlocked (h : Helpers) (e : Entry) (hl : e.lock = none) :
    ∀ c ∈ infoLock h e, c.label ∈
    [some "[info]%s┃ Content cut? [help]%s[blank]\n",
     some "[info]%s┃ Locked by another process? [help]%s[blank]\n"] := by
  intro c hc
  simp only [infoLock, hl, List.append_nil, List.mem_cons, List.mem_singleton,
    List.not_mem_nil, or_false] at hc
  rcases hc with rfl | rfl <;> simp [Out.label]

theorem label_infoNote (h : Helpers) (e : Entry) : ∀ c ∈ infoNote h e, c.label ∈
    [some "[info]%s┃ Note: [help]%s[blank]\n",
     some "[info]%s┃ There is no note for this clipboard.[blank]\n"] := by
  intro c hc
  unfold infoNote at hc
  split at hc <;>
  · simp only [List.mem_singleton] at hc
    subst hc
    simp [Out.label]

theorem label_infoIgnore (h : Helpers) (e : Entry) : ∀ c ∈ infoIgnore h e, c.label ∈
    [none, some "[info]%s┃ Ignore regexes: [help]",
     some "[info]%s┃ There are no ignore regexes for this clipboard.[blank]\n"] := by
  intro c hc
  unfold infoIgnore at hc
  split at hc
  · simp only [List.mem_append, List.mem_cons, List.mem_singleton, List.not_mem_nil,
      or_false] at hc
    rcases hc with (rfl | hj) | rfl
    · simp [Out.label]
    · simp [label_printJoined _ c hj]
    · simp [Out.label]
  · simp only [List.mem_singleton] at hc
    subst hc
    simp [Out.label]

theorem label_infoSecrets (h : Helpers) (e : Entry) : ∀ c ∈ infoSecrets h e, c.label ∈
    [some "[info]%s┃ There are %zu ignore secrets for this clipboard.[blank]\n",
     some "[info]%s┃ There are no ignore secrets for this clipboard.[blank]\n"] := by
  intro c hc
  unfold infoSecrets at hc
  split at hc <;>
  · simp only [List.mem_singleton] at hc
    subst hc
    simp [Out.label]

theorem label_infoScriptPreview (h : Helpers) (script : String) :
    (infoScriptPreview h script).label =
      some (if script.length > 50 then "[info]%s┃ Script preview: [help]%s...[blank]\n"
            else "[info]%s┃ Script preview: [help]%s[blank]\n") := by
  unfold infoScriptPreview
  split <;> rfl

theorem label_infoScriptActions (h : Helpers) (line0 : String) :
    ∀ c ∈ infoScriptActions h line0, c.label ∈
    [none, some (if line0 ≠ "" then "[info]%s┃ Script actions: [help]"
                 else "[info]%s┃ This script is set to run for all actions.[blank]\n")] := by
  intro c hc
  unfold infoScriptActions at hc
  split at hc
  · rename_i hne
    simp only [List.mem_append, List.mem_cons, List.mem_singleton, List.not_mem_nil,
      or_false] at hc
    rcases hc with (rfl | hj) | rfl
    · simp [Out.label, hne]
    · simp [label_printJoined _ c hj]
    · simp [Out.label]
  · rename_i hne
    simp only [List.mem_singleton] at hc
    subst hc
    simp [Out.label, hne]

theorem label_infoScriptTimings (h : Helpers) (rest : List String) :
    ∀ c ∈ infoScriptTimings h rest, c.label ∈
    [none, some (if rest.head?.getD "" ≠ "" then "[info]%s┃ Script timings: [help]"
      else "[info]%s┃ This script is set to run before and after all actions.[blank]\n")] := by
  intro c hc
  unfold infoScriptTimings at hc
  split at hc
  · split at hc
    · rename_i hne
      simp only [List.mem_append, List.mem_cons, List.mem_singleton, List.not_mem_nil,
        or_false] at hc
      rcases hc with (rfl | hj) | rfl
      · simp [Out.label, hne]
      · simp [label_printJoined _ c hj]
      · simp [Out.label]
    · rename_i hne
      simp only [List.mem_singleton] at hc
      subst hc
      simp [Out.label, hne]
  · simp only [List.mem_singleton] at hc
    subst hc
    simp [Out.label]

theorem label_infoScript_none (h : Helpers) (e : Entry) (hs : e.script = none) :
    ∀ c ∈ (infoScript h e).calls,
      c.label = some "[info]%s┃ There is no script for this clipboard.[blank]\n" := by
  intro c hc
  simp only [infoScript, hs, List.mem_singleton] at hc
  subst hc
  rfl

theorem label_infoScript_of_empty_config (h : Helpers) (e : Entry) (b : String)
    (hs : e.script = some b) (hl : e.scriptConfigLines = []) :
    ∀ c ∈ (infoScript h e).calls, c.label =
      some (if b.length > 50 then "[info]%s┃ Script preview: [help]%s...[blank]\n"
            else "[info]%s┃ Script preview: [help]%s[blank]\n") := by
  intro c hc
  simp only [infoScript, hs, hl, List.mem_singleton] at hc
  subst hc
  exact label_infoScriptPreview h b

theorem label_infoScript_of_config (h : Helpers) (e : Entry) (b line0 : String)
    (rest : List String) (hs : e.script = some b) (hl : e.scriptConfigLines = line0 :: rest) :
    ∀ c ∈ (infoScript h e).calls, c.label ∈
    [none,
     some (if b.length > 50 then "[info]%s┃ Script preview: [help]%s...[blank]\n"
           else "[info]%s┃ Script preview: [help]%s[blank]\n"),
     some (if line0 ≠ "" then "[info]%s┃ Script actions: [help]"
           else "[info]%s┃ This script is set to run for all actions.[blank]\n"),
     some (if rest.head?.getD "" ≠ "" then "[info]%s┃ Script timings: [help]"
      else "[info]%s┃ This script is set to run before and after all actions.[blank]\n")] := by
  intro c hc
  simp only [infoScript, hs, hl, List.mem_cons, List.mem_append] at hc
  rcases hc with rfl | hc | hc
  · rw [label_infoScriptPreview]
    simp
  · have := label_infoScriptActions h line0 c hc
    simp only [List.mem_cons, List.mem_singleton, List.not_mem_nil, or_false] at this ⊢
    tauto
  · have := label_infoScriptTimings h rest c hc
    simp only [List.mem_cons, List.mem_singleton, List.not_mem_nil, or_false] at this ⊢
    tauto

/-- The literals the script section can print. -/
theorem label_infoScript (h : Helpers) (e : Entry) : ∀ c ∈ (infoScript h e).calls, c.label ∈
    [none,
     some "[info]%s┃ There is no script for this clipboard.[blank]\n",
     some "[info]%s┃ Script preview: [help]%s...[blank]\n",
     some "[info]%s┃ Script preview: [help]%s[blank]\n",
     some "[info]%s┃ Script actions: [help]",
     some "[info]%s┃ This script is set to run for all actions.[blank]\n",
     some "[info]%s┃ Script timings: [help]",
     some "[info]%s┃ This script is set to run before and after all actions.[blank]\n"] := by
  intro c hc
  cases hs : e.script with
  | none =>
    rw [label_infoScript_none h e hs c hc]
    simp
  | some b =>
    cases hl : e.scriptConfigLines with
    | nil =>
      rw [label_infoScript_of_empty_config h e b hs hl c hc]
      split <;> simp
    | cons line0 rest =>
      have := label_infoScript_of_config h e b line0 rest hs hl c hc
      simp only [List.mem_cons, List.mem_singleton, List.not_mem_nil, or_false] at this ⊢
      rcases this with hn | hp | ha | ht
      · tauto
      · rw [hp]; split <;> simp
      · rw [ha]; split <;> simp
      · rw [ht]; split <;> simp

/-- Outside the lock and script sections, the literal of a call of `info()` is one of these. -/
theorem label_info_other (h : Helpers) (e : Entry) (c : Out) (hc : c ∈ (info h e).calls) :
    c ∈ infoLock h e ∨ c ∈ (infoScript h e).calls ∨ c.label ∈
    [none,
     some "[info]%s┃ Created [help]%s[blank]\n",
     some "[info]%s┃ Content last changed [help]%s[blank]\n",
     some "[info]%s┃ Stored in [help]%s[blank]\n",
     some "[info]%s┃ Owned by [help]%s[blank]\n",
     some "[info]%s┃ Persistent? [help]%s[blank]\n",
     some "[info]%s┃ Total entries: [help]%zu[blank]\n",
     some "[info]%s┃ Total clipboard size: [help]%s[blank]\n",
     some "[info]%s┃ Total space remaining: [help]%s[blank]\n",
     some "[info]%s┃ Approx. entries remaining: [help]%s[blank]\n",
     some "[info]%s┃ Content size: [help]%s[blank]\n",
     some "[info]%s┃ Content type: [help]%s[blank]\n",
     some "[info]%s┃ Files: [help]%zu[blank]\n",
     some "[info]%s┃ Directories: [help]%zu[blank]\n",
     some "[info]%s┃ Available types from GUI: [help]",
     some "[info]%s┃ Note: [help]%s[blank]\n",
     some "[info]%s┃ There is no note for this clipboard.[blank]\n",
     some "[info]%s┃ Ignore regexes: [help]",
     some "[info]%s┃ There are no ignore regexes for this clipboard.[blank]\n",
     some "[info]%s┃ There are %zu ignore secrets for this clipboard.[blank]\n",
     some "[info]%s┃ There are no ignore secrets for this clipboard.[blank]\n"] := by
  rcases mem_info_calls h e c hc with
    hc | hc | hc | hc | hc | hc | hc | hc | hc | hc | hc
  · right; right
    rw [label_infoBanner h e c hc]
    simp
  · right; right
    have := label_infoFacts h e c hc
    simp only [List.mem_cons, List.mem_singleton, List.not_mem_nil, or_false] at this ⊢
    tauto
  · right; right
    rw [hc]
    simp
  · right; right
    have := label_infoContent h e c hc
    simp only [List.mem_cons, List.mem_singleton, List.not_mem_nil, or_false] at this ⊢
    tauto
  · right; right
    have := label_infoMimes h e c hc
    simp only [List.mem_cons, List.mem_singleton, List.not_mem_nil, or_false] at this ⊢
    tauto
  · left; exact hc
  · right; right
    have := label_infoNote h e c hc
    simp only [List.mem_cons, List.mem_singleton, List.not_mem_nil, or_false] at this ⊢
    tauto
  · right; right
    have := label_infoIgnore h e c hc
    simp only [List.mem_cons, List.mem_singleton, List.not_mem_nil, or_false] at this ⊢
    tauto
  · right; right
    have := label_infoSecrets h e c hc
    simp only [List.mem_cons, List.mem_singleton, List.not_mem_nil, or_false] at this ⊢
    tauto
  · right; left; exact hc
  · right; right
    rw [label_infoFooter h c hc]
    simp

/-! ## The formats each section of `infoJSON()` prints -/

theorem plainFormat_printQuoted (escape : String → String) (xs : List String) :
    ∀ c ∈ printQuoted escape xs, c.plainFormat = some "\"%s\"%s" := by
  intro c hc
  simp only [printQuoted, List.mem_map] at hc
  obtain ⟨x, -, rfl⟩ := hc
  rfl

theorem plainFormat_infoJSONFacts (h : Helpers) (e : Entry) :
    ∀ c ∈ infoJSONFacts h e, c.plainFormat ∈
    [some "\x7b\n",
     some "    \"name\": \"%s\",\n",
     some "    \"created\": \"%s\",\n",
     some "    \"contentLastChanged\": \"%s\",\n",
     some "    \"path\": \"%s\",\n",
     some "    \"owner\": \"%s\",\n",
     some "    \"isPersistent\": %s,\n",
     some "    \"totalEntries\": %zu,\n",
     some "    \"totalBytesUsed\": %zu,\n",
     some "    \"totalBytesRemaining\": %zu,\n"] := by
  intro c hc
  simp only [infoJSONFacts, List.mem_cons, List.mem_singleton, List.not_mem_nil,
    or_false] at hc
  rcases hc with rfl | rfl | rfl | rfl | rfl | rfl | rfl | rfl | rfl | rfl <;>
    simp [Out.plainFormat]

theorem plainFormat_infoJSONContent (h : Helpers) (e : Entry) :
    ∀ c ∈ infoJSONContent h e, c.plainFormat ∈
    [some "    \"contentBytes\": %zu,\n",
     some "    \"contentType\": \"%s\",\n",
     some "    \"files\": %zu,\n",
     some "    \"directories\": %zu,\n"] := by
  intro c hc
  unfold infoJSONContent at hc
  split at hc
  · simp only [List.mem_cons, List.mem_singleton, List.not_mem_nil, or_false] at hc
    rcases hc with rfl | rfl <;> simp [Out.plainFormat]
  · simp only [List.mem_cons, List.mem_singleton, List.not_mem_nil, or_false] at hc
    rcases hc with rfl | rfl | rfl <;> simp [Out.plainFormat]

theorem plainFormat_infoJSONMimes (e : Entry) :
    ∀ c ∈ infoJSONMimes e, c.plainFormat ∈
    [some "    \"availableTypes\": [", some "\"%s\"%s", some "],\n"] := by
  intro c hc
  unfold infoJSONMimes at hc
  split at hc
  · simp at hc
  · simp only [List.mem_append, List.mem_cons, List.mem_singleton, List.not_mem_nil,
      or_false] at hc
    rcases hc with (rfl | hq) | rfl
    · simp [Out.plainFormat]
    · simp [plainFormat_printQuoted _ _ c hq]
    · simp [Out.plainFormat]

theorem plainFormat_infoJSONLock_unlocked (e : Entry) (hl : e.lock = none) :
    ∀ c ∈ infoJSONLock e, c.plainFormat ∈
    [some "    \"contentCut\": %s,\n", some "    \"locked\": %s,\n"] := by
  intro c hc
  simp only [infoJSONLock, hl, List.append_nil, List.mem_cons, List.mem_singleton,
    List.not_mem_nil, or_false] at hc
  rcases hc with rfl | rfl <;> simp [Out.plainFormat]

theorem plainFormat_infoJSONNote (h : Helpers) (e : Entry) :
    ∀ c ∈ infoJSONNote h e, c.plainFormat ∈
    [some "    \"note\": \"%s\",\n", some "    \"note\": null,\n"] := by
  intro c hc
  unfold infoJSONNote at hc
  split at hc <;>
  · simp only [List.mem_singleton] at hc
    subst hc
    simp [Out.plainFormat]

theorem plainFormat_infoJSONIgnore (h : Helpers) (e : Entry) :
    ∀ c ∈ infoJSONIgnore h e, c.plainFormat ∈
    [some "    \"ignoreRegexes\": [", some "\"%s\"%s", some "]\n",
     some "    \"ignoreRegexes\": []\n"] := by
  intro c hc
  unfold infoJSONIgnore at hc
  split at hc
  · simp only [List.mem_append, List.mem_cons, List.mem_singleton, List.not_mem_nil,
      or_false] at hc
    rcases hc with (rfl | hq) | rfl
    · simp [Out.plainFormat]
    · simp [plainFormat_printQuoted _ _ c hq]
    · simp [Out.plainFormat]
  · simp only [List.mem_singleton] at hc
    subst hc
    simp [Out.plainFormat]

/-- Outside the lock section, the format of a call of `infoJSON()` is one of these. -/
theorem plainFormat_infoJSON_other (h : Helpers) (e : Entry) (c : Out)
    (hc : c ∈ (infoJSON h e).calls) :
    c ∈ infoJSONLock e ∨ c.plainFormat ∈
    [some "\x7b\n",
     some "    \"name\": \"%s\",\n",
     some "    \"created\": \"%s\",\n",
     some "    \"contentLastChanged\": \"%s\",\n",
     some "    \"path\": \"%s\",\n",
     some "    \"owner\": \"%s\",\n",
     some "    \"isPersistent\": %s,\n",
     some "    \"totalEntries\": %zu,\n",
     some "    \"totalBytesUsed\": %zu,\n",
     some "    \"totalBytesRemaining\": %zu,\n",
     some "    \"approxEntriesRemaining\": %zu,\n",
     some "    \"contentBytes\": %zu,\n",
     some "    \"contentType\": \"%s\",\n",
     some "    \"files\": %zu,\n",
     some "    \"directories\": %zu,\n",
     some "    \"availableTypes\": [",
     some "\"%s\"%s",
     some "],\n",
     some "    \"note\": \"%s\",\n",
     some "    \"note\": null,\n",
     some "    \"ignoreRegexes\": [",
     some "]\n",
     some "    \"ignoreRegexes\": []\n",
     some "\x7d\n"] := by
  rcases mem_infoJSON_calls h e c hc with hc | hc | hc | hc | hc | hc | hc | hc
  · right
    have := plainFormat_infoJSONFacts h e c hc
    simp only [List.mem_cons, List.mem_singleton, List.not_mem_nil, or_false] at this ⊢
    tauto
  · right
    rw [hc]
    simp
  · right
    have := plainFormat_infoJSONContent h e c hc
    simp only [List.mem_cons, List.mem_singleton, List.not_mem_nil, or_false] at this ⊢
    tauto
  · right
    have := plainFormat_infoJSONMimes e c hc
    simp only [List.mem_cons, List.mem_singleton, List.not_mem_nil, or_false] at this ⊢
    tauto
  · left; exact hc
  · right
    have := plainFormat_infoJSONNote h e c hc
    simp only [List.mem_cons, List.mem_singleton, List.not_mem_nil, or_false] at this ⊢
    tauto
  · right
    have := plainFormat_infoJSONIgnore h e c hc
    simp only [List.mem_cons, List.mem_singleton, List.not_mem_nil, or_false] at this ⊢
    tauto
  · right
    rw [hc]
    simp

/-! ## The lock lines -/

/-- Without a lock marker, `info()` makes no "Locked by process with pid" call. -/
theorem no_pid_call_of_unlocked (h : Helpers) (e : Entry) (hl : e.lock = none)
    (args : List Arg) :
    Out.colored "[info]%s┃ Locked by process with pid [help]%s[blank]\n" args
      ∉ (info h e).calls := by
  intro hc
  rcases label_info_other h e _ hc with hc | hc | hc
  · have := label_infoLock_unlocked h e hl _ hc
    simp [Out.label] at this
  · have := label_infoScript h e _ hc
    simp [Out.label] at this
  · simp [Out.label] at hc

/-- Without a lock marker, `infoJSON()` makes no `lockedBy` call. -/
theorem no_lockedBy_call_of_unlocked (h : Helpers) (e : Entry) (hl : e.lock = none)
    (args : List Arg) :
    Out.direct "    \"lockedBy\": \"%s\",\n" args ∉ (infoJSON h e).calls := by
  intro hc
  rcases plainFormat_infoJSON_other h e _ hc with hc | hc
  · have := plainFormat_infoJSONLock_unlocked e hl _ hc
    simp [Out.plainFormat] at this
  · simp [Out.plainFormat] at hc

/-! ## Both reports against the snapshot -/

theorem isInfix_of_eq_append {α : Type} {x l a : List α} (hl : l = a ++ x) : x <:+: l :=
  ⟨a, [], by simp [hl]⟩

theorem isInfix_head {α : Type} (x l : List α) : x <:+: x ++ l :=
  ⟨[], l, by simp⟩

theorem isInfix_tail {α : Type} {x l : List α} (a : List α) (hx : x <:+: l) : x <:+: a ++ l := by
  obtain ⟨s, t, hst⟩ := hx
  exact ⟨a ++ s, t, by rw [← hst]; simp⟩

theorem info_calls_of_some (h : Helpers) (e : Entry) (r : Nat)
    (hx : approxEntriesRemaining e.spaceAvailable e.totalSize e.totalEntries = some r) :
    (info h e).calls =
      infoBanner h e ++ (infoFacts h e ++
        ([.colored "[info]%s┃ Approx. entries remaining: [help]%s[blank]\n"
              [.str h.generatedEndbar, .str (h.formatNumbers r)]] ++
        (infoContent h e ++ (infoMimes h e ++ (infoLock h e ++ (infoNote h e ++
        (infoIgnore h e ++ (infoSecrets h e ++ ((infoScript h e).calls ++
        (if (infoScript h e).outcome = .finished then infoFooter h else [])))))))))) := by
  rw [info_of_some h e r hx]
  simp only [List.append_assoc]

theorem infoJSON_calls_of_some (h : Helpers) (e : Entry) (r : Nat)
    (hx : approxEntriesRemaining e.spaceAvailable e.totalSize e.totalEntries = some r) :
    (infoJSON h e).calls =
      infoJSONFacts h e ++ ([.direct "    \"approxEntriesRemaining\": %zu,\n" [.num r]] ++
        (infoJSONContent h e ++ (infoJSONMimes e ++ (infoJSONLock e ++ (infoJSONNote h e ++
        (infoJSONIgnore h e ++ [.direct "\x7d\n" []])))))) := by
  rw [infoJSON_of_some h e r hx]
  simp only [List.append_assoc]

theorem infoLock_within (h : Helpers) (e : Entry) (r : Nat)
    (hx : approxEntriesRemaining e.spaceAvailable e.totalSize e.totalEntries = some r) :
    infoLock h e <:+: (info h e).calls := by
  rw [info_calls_of_some h e r hx]
  exact isInfix_tail _ (isInfix_tail _ (isInfix_tail _ (isInfix_tail _ (isInfix_tail _
    (isInfix_head _ _)))))

theorem infoIgnore_within (h : Helpers) (e : Entry) (r : Nat)
    (hx : approxEntriesRemaining e.spaceAvailable e.totalSize e.totalEntries = some r) :
    infoIgnore h e <:+: (info h e).calls := by
  rw [info_calls_of_some h e r hx]
  exact isInfix_tail _ (isInfix_tail _ (isInfix_tail _ (isInfix_tail _ (isInfix_tail _
    (isInfix_tail _ (isInfix_tail _ (isInfix_head _ _)))))))

theorem infoScript_within (h : Helpers) (e : Entry) (r : Nat)
    (hx : approxEntriesRemaining e.spaceAvailable e.totalSize e.totalEntries = some r) :
    (infoScript h e).calls <:+: (info h e).calls := by
  rw [info_calls_of_some h e r hx]
  exact isInfix_tail _ (isInfix_tail _ (isInfix_tail _ (isInfix_tail _ (isInfix_tail _
    (isInfix_tail _ (isInfix_tail _ (isInfix_tail _ (isInfix_tail _ (isInfix_head _ _)))))))))

theorem infoJSONLock_within (h : Helpers) (e : Entry) (r : Nat)
    (hx : approxEntriesRemaining e.spaceAvailable e.totalSize e.totalEntries = some r) :
    infoJSONLock e <:+: (infoJSON h e).calls := by
  rw [infoJSON_calls_of_some h e r hx]
  exact isInfix_tail _ (isInfix_tail _ (isInfix_tail _ (isInfix_tail _ (isInfix_head _ _))))

theorem infoJSONIgnore_within (h : Helpers) (e : Entry) (r : Nat)
    (hx : approxEntriesRemaining e.spaceAvailable e.totalSize e.totalEntries = some r) :
    infoJSONIgnore h e <:+: (infoJSON h e).calls := by
  rw [infoJSON_calls_of_some h e r hx]
  exact isInfix_tail _ (isInfix_tail _ (isInfix_tail _ (isInfix_tail _ (isInfix_tail _
    (isInfix_tail _ (isInfix_head _ _))))))

theorem infoJSONFacts_within (h : Helpers) (e : Entry) :
    infoJSONFacts h e <:+: (infoJSON h e).calls := by
  cases hx : approxEntriesRemaining e.spaceAvailable e.totalSize e.totalEntries with
  | none =>
    rw [infoJSON_of_none h e hx]
  | some r =>
    rw [infoJSON_calls_of_some h e r hx]
    exact isInfix_head _ _

theorem label_info_of_none (h : Helpers) (e : Entry)
    (hx : approxEntriesRemaining e.spaceAvailable e.totalSize e.totalEntries = none) :
    ∀ c ∈ (info h e).calls, c.label ∈
    [none,
     some "[info]%s┃ Created [help]%s[blank]\n",
     some "[info]%s┃ Content last changed [help]%s[blank]\n",
     some "[info]%s┃ Stored in [help]%s[blank]\n",
     some "[info]%s┃ Owned by [help]%s[blank]\n",
     some "[info]%s┃ Persistent? [help]%s[blank]\n",
     some "[info]%s┃ Total entries: [help]%zu[blank]\n",
     some "[info]%s┃ Total clipboard size: [help]%s[blank]\n",
     some "[info]%s┃ Total space remaining: [help]%s[blank]\n"] := by
  intro c hc
  rw [info_of_none h e hx] at hc
  simp only [List.mem_append] at hc
  rcases hc with hc | hc
  · rw [label_infoBanner h e c hc]
    simp
  · have := label_infoFacts h e c hc
    simp only [List.mem_cons, List.mem_singleton, List.not_mem_nil, or_false] at this ⊢
    tauto

theorem plainFormat_infoJSON_of_none (h : Helpers) (e : Entry)
    (hx : approxEntriesRemaining e.spaceAvailable e.totalSize e.totalEntries = none) :
    ∀ c ∈ (infoJSON h e).calls, c.plainFormat ∈
    [some "\x7b\n",
     some "    \"name\": \"%s\",\n",
     some "    \"created\": \"%s\",\n",
     some "    \"contentLastChanged\": \"%s\",\n",
     some "    \"path\": \"%s\",\n",
     some "    \"owner\": \"%s\",\n",
     some "    \"isPersistent\": %s,\n",
     some "    \"totalEntries\": %zu,\n",
     some "    \"totalBytesUsed\": %zu,\n",
     some "    \"totalBytesRemaining\": %zu,\n"] := by
  intro c hc
  rw [infoJSON_of_none h e hx] at hc
  exact plainFormat_infoJSONFacts h e c hc

/-- C1 (the code at the failing inputs): on the empty clipboard (one entry, 0 bytes) and on a
clipboard with 0 entries, both `info()` and `infoJSON()` evaluate a division by zero; on the
empty clipboard neither run makes its "approx. entries remaining" call, so that no `n/a` and
no `null` is reported. -/
theorem info_infoJSON_divide_by_zero_on_emptyEntry :
    emptyEntry.totalEntries = 1 ∧ emptyEntry.totalSize = 0 ∧
    (info plainHelpers emptyEntry).outcome = .divisionByZero ∧
    (infoJSON plainHelpers emptyEntry).outcome = .divisionByZero ∧
    (info plainHelpers { plainEntry with totalEntries := 0 }).outcome = .divisionByZero ∧
    (infoJSON plainHelpers { plainEntry with totalEntries := 0 }).outcome = .divisionByZero ∧
    (∀ args, Out.colored "[info]%s┃ Approx. entries remaining: [help]%s[blank]\n" args
      ∉ (info plainHelpers emptyEntry).calls) ∧
    (∀ args, Out.direct "    \"approxEntriesRemaining\": %zu,\n" args
      ∉ (infoJSON plainHelpers emptyEntry).calls) := by
  have hx : approxEntriesRemaining emptyEntry.spaceAvailable emptyEntry.totalSize
      emptyEntry.totalEntries = none := by decide
  refine ⟨rfl, rfl, by decide, by decide, by decide, by decide, ?_, ?_⟩
  · intro args hc
    have := label_info_of_none plainHelpers emptyEntry hx _ hc
    simp [Out.label] at this
  · intro args hc
    have := plainFormat_infoJSON_of_none plainHelpers emptyEntry hx _ hc
    simp [Out.plainFormat] at this

/-- C3 (the code at the failing input): on a clipboard of ten empty entries locked by the
process 4821, both runs stop at the division by zero of lines 88 and 228, before the lock
lines: `info()` makes no "Locked by process with pid" call and `infoJSON()` makes neither its
`locked` call nor its `lockedBy` call. -/
theorem info_infoJSON_stop_before_lock_on_lockedEmptyEntry :
    lockedEmptyEntry.lock = some "4821" ∧
    (info plainHelpers lockedEmptyEntry).outcome = .divisionByZero ∧
    (infoJSON plainHelpers lockedEmptyEntry).outcome = .divisionByZero ∧
    (∀ args, Out.colored "[info]%s┃ Locked by process with pid [help]%s[blank]\n" args
      ∉ (info plainHelpers lockedEmptyEntry).calls) ∧
    (∀ args, Out.direct "    \"locked\": %s,\n" args
      ∉ (infoJSON plainHelpers lockedEmptyEntry).calls) ∧
    (∀ args, Out.direct "    \"lockedBy\": \"%s\",\n" args
      ∉ (infoJSON plainHelpers lockedEmptyEntry).calls) := by
  have hx : approxEntriesRemaining lockedEmptyEntry.spaceAvailable lockedEmptyEntry.totalSize
      lockedEmptyEntry.totalEntries = none := by decide
  refine ⟨rfl, by decide, by decide, ?_, ?_, ?_⟩
  · intro args hc
    have := label_info_of_none plainHelpers lockedEmptyEntry hx _ hc
    simp [Out.label] at this
  · intro args hc
    have := plainFormat_infoJSON_of_none plainHelpers lockedEmptyEntry hx _ hc
    simp [Out.plainFormat] at this
  · intro args hc
    have := plainFormat_infoJSON_of_none plainHelpers lockedEmptyEntry hx _ hc
    simp [Out.plainFormat] at this

/-- X1: the lock lines of a run that passes the division. When the division of lines 88 and 228
is defined and the lock marker exists with content `s`, `info()` prints "Locked by process
with pid" with `s` as it is and `infoJSON()` prints `locked` as true and `lockedBy` with `s`;
when the marker does not exist, `info()` makes no pid call and `infoJSON()` prints `locked`
as false and makes no `lockedBy` call. -/
theorem lock_lines_of_defined_division (h : Helpers) (e : Entry)
    (hd : (approxEntriesRemaining e.spaceAvailable e.totalSize e.totalEntries).isSome) :
    (∀ s, e.lock = some s →
      Out.colored "[info]%s┃ Locked by process with pid [help]%s[blank]\n"
          [.str h.generatedEndbar, .str s] ∈ (info h e).calls ∧
      Out.direct "    \"locked\": %s,\n" [.str "true"] ∈ (infoJSON h e).calls ∧
      Out.direct "    \"lockedBy\": \"%s\",\n" [.str s] ∈ (infoJSON h e).calls) ∧
    (e.lock = none →
      (∀ args, Out.colored "[info]%s┃ Locked by process with pid [help]%s[blank]\n" args
          ∉ (info h e).calls) ∧
      Out.direct "    \"locked\": %s,\n" [.str "false"] ∈ (infoJSON h e).calls ∧
      (∀ args, Out.direct "    \"lockedBy\": \"%s\",\n" args ∉ (infoJSON h e).calls)) := by
  obtain ⟨r, hx⟩ := Option.isSome_iff_exists.1 hd
  constructor
  · intro s hs
    refine ⟨(infoLock_within h e r hx).subset ?_, (infoJSONLock_within h e r hx).subset ?_,
      (infoJSONLock_within h e r hx).subset ?_⟩
    · simp [infoLock, hs]
    · simp [infoJSONLock, hs, isLocked]
    · simp [infoJSONLock, hs]
  · intro hs
    refine ⟨no_pid_call_of_unlocked h e hs, (infoJSONLock_within h e r hx).subset ?_,
      no_lockedBy_call_of_unlocked h e hs⟩
    simp [infoJSONLock, hs, isLocked]

/-- The entry `lockedEntry` (lock file containing 4821): the text line and the JSON members. -/
theorem lock_lines_of_defined_division_witness :
    Out.colored "[info]%s┃ Locked by process with pid [help]%s[blank]\n"
        [.str plainHelpers.generatedEndbar, .str "4821"] ∈ (info plainHelpers lockedEntry).calls ∧
    Out.direct "    \"locked\": %s,\n" [.str "true"] ∈ (infoJSON plainHelpers lockedEntry).calls ∧
    Out.direct "    \"lockedBy\": \"%s\",\n" [.str "4821"]
      ∈ (infoJSON plainHelpers lockedEntry).calls :=
  (lock_lines_of_defined_division plainHelpers lockedEntry (by decide)).1 "4821" rfl


/-! ## The script preview -/

/-- The literals of the script section of an entry that has the script `b`. -/
theorem label_infoScript_of_script (h : Helpers) (e : Entry) (b : String)
    (hs : e.script = some b) :
    ∀ c ∈ (infoScript h e).calls, c.label ∈
      [none,
       some (if b.length > 50 then "[info]%s┃ Script preview: [help]%s...[blank]\n"
             else "[info]%s┃ Script preview: [help]%s[blank]\n"),
       some "[info]%s┃ Script actions: [help]",
       some "[info]%s┃ This script is set to run for all actions.[blank]\n",
       some "[info]%s┃ Script timings: [help]",
       some "[info]%s┃ This script is set to run before and after all actions.[blank]\n"] := by
  intro c hc
  cases hl : e.scriptConfigLines with
  | nil =>
    rw [label_infoScript_of_empty_config h e b hs hl c hc]
    simp
  | cons line0 rest =>
    have := label_infoScript_of_config h e b line0 rest hs hl c hc
    simp only [List.mem_cons, List.mem_singleton, List.not_mem_nil, or_false] at this ⊢
    rcases this with hn | hp | ha | ht
    · tauto
    · tauto
    · rw [ha]; split <;> simp
    · rw [ht]; split <;> simp

/-- The preview call is made whenever the run reaches the script section. -/
theorem infoScriptPreview_mem (h : Helpers) (e : Entry) (b : String) (r : Nat)
    (hs : e.script = some b)
    (hx : approxEntriesRemaining e.spaceAvailable e.totalSize e.totalEntries = some r) :
    infoScriptPreview h b ∈ (info h e).calls := by
  refine (infoScript_within h e r hx).subset ?_
  unfold infoScript
  rw [hs]
  cases e.scriptConfigLines <;> simp

/-- A preview call of `info()` has the literal that the length of the script selects. -/
theorem preview_label_of_mem (h : Helpers) (e : Entry) (b : String) (hs : e.script = some b)
    (c : Out) (hc : c ∈ (info h e).calls)
    (hp : c.label = some "[info]%s┃ Script preview: [help]%s...[blank]\n" ∨
          c.label = some "[info]%s┃ Script preview: [help]%s[blank]\n") :
    c.label = some (if b.length > 50 then "[info]%s┃ Script preview: [help]%s...[blank]\n"
                    else "[info]%s┃ Script preview: [help]%s[blank]\n") := by
  rcases label_info_other h e c hc with hc | hc | hc
  · have := label_infoLock h e c hc
    rcases hp with hp | hp <;> simp [hp] at this
  · have := label_infoScript_of_script h e b hs c hc
    rcases hp with hp | hp
    · rw [hp] at this ⊢
      by_cases hb : b.length > 50
      · simp [hb]
      · simp [hb] at this
    · rw [hp] at this ⊢
      by_cases hb : b.length > 50
      · simp [hb] at this
      · simp [hb]
  · rcases hp with hp | hp <;> simp [hp] at hc

/-- C4 (counterexample): the script `echo`, fifty spaces, `hi` has 56 characters and its
normalised form `echo hi` has 7; `info()` prints the preview `echo ` (5 visible characters)
followed by the truncation marker, and makes no preview call without the marker. -/
theorem scriptPreview_not_fifty_visible_characters :
    spacedScript.length = 56 ∧
    plainHelpers.makeControlCharactersVisible (plainHelpers.removeExcessWhitespace spacedScript)
      = "echo hi" ∧
    (info plainHelpers (scriptEntry spacedScript ["", ""])).outcome = .finished ∧
    Out.colored "[info]%s┃ Script preview: [help]%s...[blank]\n" [.str "", .str "echo "]
      ∈ (info plainHelpers (scriptEntry spacedScript ["", ""])).calls ∧
    "echo ".length = 5 ∧
    (∀ args, Out.colored "[info]%s┃ Script preview: [help]%s[blank]\n" args
      ∉ (info plainHelpers (scriptEntry spacedScript ["", ""])).calls) := by
  have hx : approxEntriesRemaining (scriptEntry spacedScript ["", ""]).spaceAvailable
      (scriptEntry spacedScript ["", ""]).totalSize
      (scriptEntry spacedScript ["", ""]).totalEntries = some 100 := by decide
  refine ⟨by decide, by decide, by decide, ?_, by decide, ?_⟩
  · exact infoScriptPreview_mem plainHelpers _ spacedScript 100 rfl hx
  · intro args hc
    have := preview_label_of_mem plainHelpers _ spacedScript rfl _ hc (Or.inr rfl)
    have hlen : spacedScript.length > 50 := by decide
    simp [Out.label, hlen] at this

/-- C4 (amended): for an entry that has a script with body `b` and on which the division of
line 88 is defined, the length is measured on the body as stored, before any normalisation:
if `b` has at most 50 characters, the "Script preview" call shows the normalised body and no
call carries the truncation marker; if `b` has more than 50 characters, the call shows the
normalisation of the first 50 characters of `b`, followed by the truncation marker, and no
preview call without the marker is made. -/
theorem scriptPreview_cut_before_normalising (h : Helpers) (e : Entry) (b : String)
    (hs : e.script = some b)
    (hd : (approxEntriesRemaining e.spaceAvailable e.totalSize e.totalEntries).isSome) :
    (b.length ≤ 50 →
      Out.colored "[info]%s┃ Script preview: [help]%s[blank]\n"
        [.str h.generatedEndbar,
         .str (h.makeControlCharactersVisible (h.removeExcessWhitespace b))]
        ∈ (info h e).calls ∧
      ∀ args, Out.colored "[info]%s┃ Script preview: [help]%s...[blank]\n" args
        ∉ (info h e).calls) ∧
    (50 < b.length →
      Out.colored "[info]%s┃ Script preview: [help]%s...[blank]\n"
        [.str h.generatedEndbar,
         .str (h.makeControlCharactersVisible
                (h.removeExcessWhitespace (String.mk (b.toList.take 50))))]
        ∈ (info h e).calls ∧
      ∀ args, Out.colored "[info]%s┃ Script preview: [help]%s[blank]\n" args
        ∉ (info h e).calls) := by
  obtain ⟨r, hx⟩ := Option.isSome_iff_exists.1 hd
  have hmem := infoScriptPreview_mem h e b r hs hx
  constructor
  · intro hle
    have hnot : ¬ b.length > 50 := by omega
    refine ⟨?_, ?_⟩
    · simpa only [infoScriptPreview, hnot, if_false] using hmem
    · intro args hc
      have := preview_label_of_mem h e b hs _ hc (Or.inl rfl)
      simp [Out.label, hnot] at this
  · intro hgt
    have hyes : b.length > 50 := hgt
    refine ⟨?_, ?_⟩
    · simpa only [infoScriptPreview, hyes, if_true] using hmem
    · intro args hc
      have := preview_label_of_mem h e b hs _ hc (Or.inr rfl)
      simp [Out.label, hyes] at this

/-- A script of 7 characters: the preview is the normalised body, without the marker. -/
theorem scriptPreview_cut_before_normalising_witness :
    Out.colored "[info]%s┃ Script preview: [help]%s[blank]\n"
      [.str plainHelpers.generatedEndbar,
       .str (plainHelpers.makeControlCharactersVisible
              (plainHelpers.removeExcessWhitespace "echo hi"))]
      ∈ (info plainHelpers (scriptEntry "echo hi" ["copy", "before"])).calls ∧
    ∀ args, Out.colored "[info]%s┃ Script preview: [help]%s...[blank]\n" args
      ∉ (info plainHelpers (scriptEntry "echo hi" ["copy", "before"])).calls :=
  (scriptPreview_cut_before_normalising plainHelpers
    (scriptEntry "echo hi" ["copy", "before"]) "echo hi" rfl (by decide)).1 (by decide)


/-! ## The script configuration -/

/-- C5 (the code at the failing input): for an entry that has a script and a configuration
of zero lines (the division of line 88 being defined), `info()` reads `lines[0]` of an empty
vector at line 151: the run stops there, and makes neither the "runs for all actions" call
nor the "runs before and after all actions" call. -/
theorem info_reads_past_empty_script_config :
    (scriptEntry "echo hi" []).script = some "echo hi" ∧
    (scriptEntry "echo hi" []).scriptConfigLines = [] ∧
    (info plainHelpers (scriptEntry "echo hi" [])).outcome = .indexOutOfRange ∧
    (∀ args, Out.colored "[info]%s┃ This script is set to run for all actions.[blank]\n" args
      ∉ (info plainHelpers (scriptEntry "echo hi" [])).calls) ∧
    (∀ args,
      Out.colored "[info]%s┃ This script is set to run before and after all actions.[blank]\n"
        args ∉ (info plainHelpers (scriptEntry "echo hi" [])).calls) := by
  refine ⟨rfl, rfl, by decide, ?_, ?_⟩
  · intro args hc
    rcases label_info_other plainHelpers _ _ hc with hc | hc | hc
    · have := label_infoLock _ _ _ hc
      simp [Out.label] at this
    · have := label_infoScript_of_empty_config plainHelpers _ "echo hi" rfl rfl _ hc
      simp [Out.label] at this
      split at this <;> simp at this
    · simp [Out.label] at hc
  · intro args hc
    rcases label_info_other plainHelpers _ _ hc with hc | hc | hc
    · have := label_infoLock _ _ _ hc
      simp [Out.label] at this
    · have := label_infoScript_of_empty_config plainHelpers _ "echo hi" rfl rfl _ hc
      simp [Out.label] at this
      split at this <;> simp at this
    · simp [Out.label] at hc

theorem infoScript_of_config (h : Helpers) (e : Entry) (b line0 : String) (rest : List String)
    (hs : e.script = some b) (hl : e.scriptConfigLines = line0 :: rest) :
    infoScript h e =
      ⟨[infoScriptPreview h b] ++ (infoScriptActions h line0 ++ infoScriptTimings h rest),
       .finished⟩ := by
  simp [infoScript, hs, hl]

/-- X2: the script configuration of a run that reaches it with at least one line. For an entry
that has a script, whose configuration has a first line `line0` and further lines `rest`, and
on which the division of line 88 is defined, `info()` returns; when `line0` is empty it
reports that the script runs for all actions and makes no "Script actions" call, otherwise it
prints the names `regexSplit` finds in `line0`; when the second line is missing or empty it
reports that the script runs before and after all actions and makes no "Script timings"
call, otherwise it prints the names of that line. -/
theorem script_config_report_of_first_line (h : Helpers) (e : Entry) (b line0 : String)
    (rest : List String) (hs : e.script = some b) (hl : e.scriptConfigLines = line0 :: rest)
    (hd : (approxEntriesRemaining e.spaceAvailable e.totalSize e.totalEntries).isSome) :
    (info h e).outcome = .finished ∧
    (line0 = "" →
      Out.colored "[info]%s┃ This script is set to run for all actions.[blank]\n"
        [.str h.generatedEndbar] ∈ (info h e).calls ∧
      ∀ args, Out.colored "[info]%s┃ Script actions: [help]" args ∉ (info h e).calls) ∧
    (line0 ≠ "" →
      [Out.colored "[info]%s┃ Script actions: [help]" [.str h.generatedEndbar]]
        ++ printJoined (h.regexSplit line0) ++ [.direct "%s" [.colors "[blank]\n"]]
        <:+: (info h e).calls) ∧
    ((rest.head? = none ∨ rest.head? = some "") →
      Out.colored "[info]%s┃ This script is set to run before and after all actions.[blank]\n"
        [.str h.generatedEndbar] ∈ (info h e).calls ∧
      ∀ args, Out.colored "[info]%s┃ Script timings: [help]" args ∉ (info h e).calls) ∧
    (∀ line1, rest.head? = some line1 → line1 ≠ "" →
      [Out.colored "[info]%s┃ Script timings: [help]" [.str h.generatedEndbar]]
        ++ printJoined (h.regexSplit line1) ++ [.direct "%s" [.colors "[blank]\n"]]
        <:+: (info h e).calls) := by
  obtain ⟨r, hx⟩ := Option.isSome_iff_exists.1 hd
  have hscript := infoScript_of_config h e b line0 rest hs hl
  have hin := infoScript_within h e r hx
  rw [hscript] at hin
  have hact : infoScriptActions h line0 <:+: (info h e).calls :=
    (isInfix_tail _ (isInfix_head _ _)).trans hin
  have htim : infoScriptTimings h rest <:+: (info h e).calls :=
    (isInfix_tail _ (isInfix_of_eq_append rfl)).trans hin
  have hlab := label_infoScript_of_config h e b line0 rest hs hl
  refine ⟨?_, ?_, ?_, ?_, ?_⟩
  · rw [info_of_some h e r hx, hscript]
  · intro h0
    refine ⟨hact.subset (by simp [infoScriptActions, h0]), ?_⟩
    intro args hc
    rcases label_info_other h e _ hc with hc | hc | hc
    · have := label_infoLock h e _ hc
      simp [Out.label] at this
    · have := hlab _ hc
      simp only [Out.label, h0, ne_eq, not_true_eq_false, if_false, List.mem_cons,
        List.mem_singleton, List.not_mem_nil, or_false, Option.some.injEq] at this
      rcases this with hh | hh | hh | hh
      · cases hh
      · split at hh <;> simp at hh
      · simp at hh
      · split at hh <;> simp at hh
    · simp [Out.label] at hc
  · intro h0
    have : infoScriptActions h line0 =
        [Out.colored "[info]%s┃ Script actions: [help]" [.str h.generatedEndbar]]
        ++ printJoined (h.regexSplit line0) ++ [.direct "%s" [.colors "[blank]\n"]] := by
      simp [infoScriptActions, h0]
    rw [← this]
    exact hact
  · intro h1
    have hg : rest.head?.getD "" = "" := by
      rcases h1 with h1 | h1 <;> simp [h1]
    refine ⟨htim.subset ?_, ?_⟩
    · cases rest with
      | nil => simp [infoScriptTimings]
      | cons line1 more =>
        simp only [List.head?_cons, Option.getD_some] at hg
        simp [infoScriptTimings, hg]
    · intro args hc
      rcases label_info_other h e _ hc with hc | hc | hc
      · have := label_infoLock h e _ hc
        simp [Out.label] at this
      · have := hlab _ hc
        simp only [Out.label, hg, ne_eq, not_true_eq_false, if_false, List.mem_cons,
          List.mem_singleton, List.not_mem_nil, or_false, Option.some.injEq] at this
        rcases this with hh | hh | hh | hh
        · cases hh
        · split at hh <;> simp at hh
        · split at hh <;> simp at hh
        · simp at hh
      · simp [Out.label] at hc
  · intro line1 h1 hne
    have : infoScriptTimings h rest =
        [Out.colored "[info]%s┃ Script timings: [help]" [.str h.generatedEndbar]]
        ++ printJoined (h.regexSplit line1) ++ [.direct "%s" [.colors "[blank]\n"]] := by
      cases rest with
      | nil => simp at h1
      | cons l more =>
        simp only [List.head?_cons, Option.some.injEq] at h1
        subst h1
        simp [infoScriptTimings, hne]
    rw [← this]
    exact htim

/-- A script whose configuration is one empty line: all actions, before and after. -/
theorem script_config_report_of_first_line_witness :
    (info plainHelpers (scriptEntry "echo hi" [""])).outcome = .finished ∧
    Out.colored "[info]%s┃ This script is set to run for all actions.[blank]\n"
      [.str plainHelpers.generatedEndbar] ∈ (info plainHelpers (scriptEntry "echo hi" [""])).calls ∧
    Out.colored "[info]%s┃ This script is set to run before and after all actions.[blank]\n"
      [.str plainHelpers.generatedEndbar]
      ∈ (info plainHelpers (scriptEntry "echo hi" [""])).calls :=
  have key := script_config_report_of_first_line plainHelpers (scriptEntry "echo hi" [""])
    "echo hi" "" [] rfl rfl (by decide)
  ⟨key.1, (key.2.1 rfl).1, (key.2.2.2.1 (Or.inl rfl)).1⟩


/-! ## The lists: ignore regexes and content types of the GUI -/

/-- C6 (the code at the failing input): for the ignore regexes `a`, `b`, `a`, the first
element equals the last one and gets no separator: `info()` prints `ab, a` and `infoJSON()`
prints `["a""b", "a"]`, where the elements joined by one separator each are `a, b, a`. -/
theorem lists_lose_separator_before_repeated_last :
    repeatedIgnoreEntry.ignoreLines = ["a", "b", "a"] ∧
    printJoined ["a", "b", "a"] =
      [.direct "%s" [.str "a"], .direct "%s" [.str "b"], .direct ", " [],
       .direct "%s" [.str "a"]] ∧
    printed plainHelpers (infoIgnore plainHelpers repeatedIgnoreEntry)
      = "[info]┃ Ignore regexes: [help]ab, a[blank]\n" ∧
    infoIgnore plainHelpers repeatedIgnoreEntry
      <:+: (info plainHelpers repeatedIgnoreEntry).calls ∧
    printed plainHelpers (infoJSONIgnore plainHelpers repeatedIgnoreEntry)
      = "    \"ignoreRegexes\": [\"a\"\"b\", \"a\"]\n" ∧
    infoJSONIgnore plainHelpers repeatedIgnoreEntry
      <:+: (infoJSON plainHelpers repeatedIgnoreEntry).calls ∧
    ", ".intercalate ["a", "b", "a"] = "a, b, a" := by
  have hx : approxEntriesRemaining repeatedIgnoreEntry.spaceAvailable
      repeatedIgnoreEntry.totalSize repeatedIgnoreEntry.totalEntries = some 100 := by decide
  exact ⟨rfl, by decide, by decide, infoIgnore_within _ _ 100 hx, by decide,
    infoJSONIgnore_within _ _ 100 hx, by decide⟩

theorem joined_of_last (last : Option String) (ys : List String)
    (hy : ys.getLast? = last ∨ ys = [])
    (hne : ∀ x ∈ ys.dropLast, some x ≠ last) :
    (ys.map fun x =>
      Out.direct "%s" [.str x] :: (if some x ≠ last then [Out.direct ", " []] else [])).flatten
    = (ys.map fun x => Out.direct "%s" [.str x]).intersperse (.direct ", " []) := by
  induction ys with
  | nil => rfl
  | cons y rest ih =>
    cases rest with
    | nil =>
      have : some y = last := by simpa using hy
      simp [this]
    | cons y2 rest2 =>
      have hyne : some y ≠ last := hne y (by simp [List.dropLast])
      have hrec := ih (by
          rcases hy with hy | hy
          · left; simpa [List.getLast?_cons_cons] using hy
          · simp at hy)
        (by
          intro x hx
          exact hne x (by simp only [List.dropLast_cons₂, List.mem_cons]; right; exact hx))
      simp only [List.map_cons, List.flatten_cons, hyne, ne_eq, not_false_eq_true, if_true,
        List.cons_append, List.nil_append, List.intersperse_cons₂] at hrec ⊢
      rw [hrec]

theorem quoted_of_last (escape : String → String) (last : Option String) (ys : List String)
    (hy : ys.getLast? = last ∨ ys = [])
    (hne : ∀ x ∈ ys.dropLast, some x ≠ last) :
    (ys.map fun x =>
      Out.direct "\"%s\"%s" [.str (escape x), .str (if some x ≠ last then ", " else "")])
    = (ys.dropLast.map fun x => Out.direct "\"%s\"%s" [.str (escape x), .str ", "])
      ++ (ys.getLast?.toList.map fun x => Out.direct "\"%s\"%s" [.str (escape x), .str ""]) := by
  induction ys with
  | nil => rfl
  | cons y rest ih =>
    cases rest with
    | nil =>
      have : some y = last := by simpa using hy
      subst this
      simp
    | cons y2 rest2 =>
      have hyne : some y ≠ last := hne y (by simp [List.dropLast])
      have hrec := ih (by
          rcases hy with hy | hy
          · left; simpa [List.getLast?_cons_cons] using hy
          · simp at hy)
        (by
          intro x hx
          exact hne x (by simp only [List.dropLast_cons₂, List.mem_cons]; right; exact hx))
      simp only [List.map_cons, hyne, ne_eq, not_false_eq_true, if_true, List.dropLast_cons₂,
        List.getLast?_cons_cons, List.cons_append] at hrec ⊢
      rw [hrec]

/-- X3: the join loops on a list whose last element occurs nowhere before the end. The text loop
makes one call per element with exactly one separator call between adjacent elements, and the
JSON loop prints every element but the last with the separator `", "` and the last with
none, both in the order of the list. -/
theorem join_loops_of_unrepeated_last (escape : String → String) (xs : List String)
    (hne : ∀ x ∈ xs.dropLast, some x ≠ xs.getLast?) :
    printJoined xs
      = (xs.map fun x => Out.direct "%s" [.str x]).intersperse (.direct ", " []) ∧
    printQuoted escape xs
      = (xs.dropLast.map fun x => Out.direct "\"%s\"%s" [.str (escape x), .str ", "])
        ++ (xs.getLast?.toList.map fun x =>
              Out.direct "\"%s\"%s" [.str (escape x), .str ""]) :=
  ⟨joined_of_last xs.getLast? xs (Or.inl rfl) hne,
   quoted_of_last escape xs.getLast? xs (Or.inl rfl) hne⟩

/-- The list `a`, `b`, `c`: `a, b, c` in text, `"a", "b", "c"` in JSON. -/
theorem join_loops_of_unrepeated_last_witness :
    printJoined ["a", "b", "c"]
      = [.direct "%s" [.str "a"], .direct ", " [], .direct "%s" [.str "b"], .direct ", " [],
         .direct "%s" [.str "c"]] ∧
    printQuoted (fun x => x) ["a", "b", "c"]
      = [.direct "\"%s\"%s" [.str "a", .str ", "], .direct "\"%s\"%s" [.str "b", .str ", "],
         .direct "\"%s\"%s" [.str "c", .str ""]] :=
  join_loops_of_unrepeated_last (fun x => x) ["a", "b", "c"] (by decide)

/-! ## JSON strings -/

/-- C7 (the code at the failing input): for the clipboard name `my "own" board`,
`infoJSON()` passes the name to `printf` as it is, so that the document holds
`"name": "my "own" board",` with the double quotes of the name between the quotes of the
value, where the escaped form of the name is `my \"own\" board`; likewise a lock file that
contains `48"21` is printed as it is in `lockedBy`. -/
theorem infoJSON_prints_name_unescaped :
    quotedNameEntry.clipboard_name = "my \"own\" board" ∧
    Out.direct "    \"name\": \"%s\",\n" [.str "my \"own\" board"]
      ∈ (infoJSON plainHelpers quotedNameEntry).calls ∧
    render plainHelpers (.direct "    \"name\": \"%s\",\n" [.str "my \"own\" board"])
      = "    \"name\": \"my \"own\" board\",\n" ∧
    plainHelpers.JSONescape "my \"own\" board" = "my \\\"own\\\" board" ∧
    Out.direct "    \"lockedBy\": \"%s\",\n" [.str "48\"21"]
      ∈ (infoJSON plainHelpers { plainEntry with lock := some "48\"21" }).calls ∧
    plainHelpers.JSONescape "48\"21" = "48\\\"21" :=
  ⟨rfl, (infoJSONFacts_within plainHelpers quotedNameEntry).subset (by decide), by decide,
    by decide,
    (infoJSONLock_within plainHelpers { plainEntry with lock := some "48\"21" } 100
      (by decide)).subset (by decide),
    by decide⟩

/-- X4: the values `infoJSON()` escapes. The path always, and, when the division of line 228 is
defined, the note and every ignore regex go through `JSONescape` before they are printed. -/
theorem infoJSON_escapes_path_note_ignoreRegexes (h : Helpers) (e : Entry)
    (hd : (approxEntriesRemaining e.spaceAvailable e.totalSize e.totalEntries).isSome) :
    Out.direct "    \"path\": \"%s\",\n" [.str (h.JSONescape e.pathString)]
      ∈ (infoJSON h e).calls ∧
    (∀ note, e.notes = some note →
      Out.direct "    \"note\": \"%s\",\n" [.str (h.JSONescape note)] ∈ (infoJSON h e).calls) ∧
    (e.holdsIgnoreRegexes = true →
      ∀ regex ∈ e.ignoreLines,
        Out.direct "\"%s\"%s"
          [.str (h.JSONescape regex), .str (if some regex ≠ e.ignoreLines.getLast? then ", " else "")]
          ∈ (infoJSON h e).calls) := by
  obtain ⟨r, hx⟩ := Option.isSome_iff_exists.1 hd
  refine ⟨(infoJSONFacts_within h e).subset (by simp [infoJSONFacts]), ?_, ?_⟩
  · intro note hn
    rw [infoJSON_calls_of_some h e r hx]
    simp [infoJSONNote, hn]
  · intro hi regex hr
    refine (infoJSONIgnore_within h e r hx).subset ?_
    simp only [infoJSONIgnore, hi, if_true, List.mem_append, List.mem_cons, List.mem_singleton,
      List.not_mem_nil, or_false, printQuoted, List.mem_map]
    left; right
    exact ⟨regex, hr, rfl⟩

/-- A note that holds a double quote is printed escaped. -/
theorem infoJSON_escapes_path_note_ignoreRegexes_witness :
    Out.direct "    \"note\": \"%s\",\n" [.str "say \\\"hi\\\""]
      ∈ (infoJSON plainHelpers { plainEntry with notes := some "say \"hi\"" }).calls :=
  (infoJSON_escapes_path_note_ignoreRegexes plainHelpers
    { plainEntry with notes := some "say \"hi\"" } (by decide)).2.1 "say \"hi\"" rfl


/-! ## The ignore secrets -/

end PerformAction
